import Mathlib

set_option autoImplicit false

/-!
A verification development for the bareclaw channel-manager core:
the per-channel dispatch engine (`ProcessManager` in
`src/core/process-manager.ts`), the detached session host
(`src/core/session-host.ts`) and the prefix-routed `PushRegistry`
(`src/core/push-registry.ts`).

The TypeScript is shallowly embedded: JavaScript `Map`s become
association lists with JS `Map.set`/`Map.get` semantics, the Node event
loop's atomic callbacks become steps of an explicit state machine, and
promise resolution/rejection becomes an append-only settlement log.
The embedded code runs with `timeoutMs = 0` (the production setting:
no per-message timeout), so the dispatch timer branch is absent.
-/

namespace Bareclaw

/-- Content block for multimodal messages (text + images), from `types.ts`. -/
inductive ContentBlock where
  | text (text : String)
  | image (media_type : String) (data : String)
  deriving DecidableEq, Repr

/-- Message content `MessageContent` — plain string or multimodal blocks (`process-manager.ts`). -/
inductive MessageContent where
  | str (s : String)
  | blocks (bs : List ContentBlock)
  deriving DecidableEq, Repr

/-- The `typeof m.content === 'string'` test used by drainQueue's coalescing guard. -/
def MessageContent.isStr : MessageContent → Bool
  | .str _ => true
  | .blocks _ => false

/-- The `m.content as string` cast performed after the all-text guard. -/
def MessageContent.asString : MessageContent → String
  | .str s => s
  | .blocks _ => ""

/-- The envelope of an NDJSON event from the agent (`ClaudeEvent` in `types.ts`);
only the fields the manager inspects are modelled, absent JSON fields are `none`. -/
structure ClaudeEvent where
  type : String
  result : Option String := none
  session_id : Option String := none
  is_error : Option Bool := none
  deriving DecidableEq, Repr

/-- Response type `SendMessageResponse` from `types.ts`; `coalesced`/`is_error` are optional fields. -/
structure SendMessageResponse where
  text : String
  duration_ms : Nat
  coalesced : Option Bool := none
  is_error : Option Bool := none
  deriving DecidableEq, Repr

/-- A message waiting in a channel's queue (`QueuedMessage` in
`process-manager.ts`).  The suspended caller's promise is represented by the
identity `mid`; `onEvent` is the identity of the caller's callback, if any. -/
structure QueuedMessage where
  mid : Nat
  content : MessageContent
  onEvent : Option Nat
  deriving DecidableEq, Repr

/-- How a caller's promise was settled. -/
inductive Outcome where
  | resolved (r : SendMessageResponse)
  | rejected (errMsg : String)
  deriving DecidableEq, Repr

/-- One settlement of a pending send future. -/
structure Settlement where
  mid : Nat
  outcome : Outcome
  deriving DecidableEq, Repr

/-- The private continuation of the in-flight dispatch
(`managed.eventHandler` together with the `start` timestamp and the
caller's `onEvent` captured by the dispatch closure). -/
structure Handler where
  mid : Nat
  onEvent : Option Nat
  start : Nat
  deriving DecidableEq, Repr

/-- Per-channel state (`ManagedChannel` minus the raw socket/readline handles):
the busy flag, the FIFO queue, and the installed event handler. -/
structure Chan where
  busy : Bool
  queue : List QueuedMessage
  eventHandler : Option Handler
  deriving DecidableEq, Repr

/-- Observable history of a channel's socket and callers:
`writes` are the framed `user` lines written to the host socket (one entry
per `socket.write` of a `ClaudeInput`, holding its content), `settlements`
the resolutions/rejections delivered to callers, `completed` the number of
`result` events consumed by an installed event handler. -/
structure Obs where
  writes : List MessageContent
  settlements : List Settlement
  completed : Nat
  deriving DecidableEq, Repr

/- ===== JS Map as an association list ===== -/

/-- JS `Map.set`: replace the value in place when the key is present
(keeping its insertion-order position), otherwise append. -/
def mapSet {α : Type} : List (String × α) → String → α → List (String × α)
  | [], k, v => [(k, v)]
  | (k', v') :: rest, k, v =>
      if k' = k then (k, v) :: rest else (k', v') :: mapSet rest k v

/-- JS `Map.get`: first entry with the key, if any. -/
def mapGet {α : Type} : List (String × α) → String → Option α
  | [], _ => none
  | (k', v') :: rest, k => if k' = k then some v' else mapGet rest k

/-- JS `channel.startsWith(p)`: is `p` a leading substring of `s`?
(Character-list prefix test, the kernel-friendly form of `String.startsWith`.) -/
def strStartsWith (s p : String) : Bool :=
  p.data.isPrefixOf s.data

/- ===== Push registry (src/core/push-registry.ts) ===== -/

/-- A push handler: `(channel, text) ↦ delivered?` (the `Promise<boolean>`
of `PushHandler` collapsed to its settled value). -/
def PushHandler := String → String → Bool

/-- Registry state `PushRegistry`: insertion-ordered prefix → handler map. -/
structure PushRegistry where
  handlers : List (String × PushHandler)

/-- Registration `PushRegistry.register`: `this.handlers.set(prefix, handler)`. -/
def PushRegistry.register (r : PushRegistry) (pfx : String) (h : PushHandler) :
    PushRegistry :=
  { handlers := mapSet r.handlers pfx h }

/-- Outbound `PushRegistry.send`: iterate the entries in insertion order and dispatch
to the first whose prefix is a leading substring of the channel; return
`false` when none matches.  The first component records which entry (by its
prefix) was dispatched to — `none` means no handler was called. -/
def PushRegistry.send (r : PushRegistry) (channel text : String) :
    Option String × Bool :=
  match r.handlers.find? (fun e => strStartsWith channel e.1) with
  | some e => (some e.1, e.2 channel text)
  | none => (none, false)

/-- Getter `PushRegistry.prefixes`: the registered keys in order. -/
def PushRegistry.prefixes (r : PushRegistry) : List String :=
  r.handlers.map Prod.fst

/- ===== Session persistence (ProcessManager.loadSessions / saveSessions) ===== -/

/-- The persisted session record: the JSON object `{channel: session_id}`
at the document level (JSON text encoding/decoding is the library's job). -/
abbrev SessionDoc := List (String × String)

/-- The object built by `saveSessions`:
`for (const [ch, sid] of this.sessions) obj[ch] = sid`. -/
def saveSessionsDoc (sessions : SessionDoc) : SessionDoc :=
  sessions.foldl (fun obj e => mapSet obj e.1 e.2) []

/-- Loading `ProcessManager.loadSessions`: fold the parsed document's entries into the
(initially empty) in-memory session map with `this.sessions.set(channel, sid)`. -/
def loadSessions (doc : SessionDoc) : SessionDoc :=
  doc.foldl (fun m e => mapSet m e.1 e.2) []

/-- A file-system operation performed by session persistence. -/
inductive FsOp where
  | writeFile (path : String) (doc : SessionDoc)
  | rename (src dst : String)
  deriving DecidableEq, Repr

/-- Persistence `ProcessManager.saveSessions`: build the document and
`writeFileSync(this.sessionFilePath, ...)` inside a `try/catch` whose handler
only logs.  `writeOk` models whether `writeFileSync` throws.  Returns the
attempted file-system operations, whether an error was logged, and whether an
error propagated to the caller. -/
def saveSessions (sessionFilePath : String) (sessions : SessionDoc)
    (writeOk : Bool) : List FsOp × Bool × Bool :=
  ([FsOp.writeFile sessionFilePath (saveSessionsDoc sessions)], !writeOk, false)

/- ===== Session host spawning (connectOrSpawn / session-host.ts) ===== -/

/-- The channel-context entry an adapter may pass in the host configuration
(second field of `--append-system-prompt` in `session-host.ts`). -/
structure HostChannelContext where
  channel : String
  adapter : String
  deriving DecidableEq, Repr

/-- Host configuration `HostConfig` — the single JSON argument `connectOrSpawn` passes to the
spawned session host. -/
structure HostConfig where
  channel : String
  socketPath : String
  pidFile : String
  cwd : String
  maxTurns : Nat
  allowedTools : String
  resumeSessionId : Option String
  channelContext : Option HostChannelContext := none
  deriving DecidableEq, Repr

/-- The daemon configuration fields the embedded core reads. -/
structure Config where
  cwd : String
  sessionFile : String
  maxTurns : Nat
  allowedTools : String
  timeoutMs : Nat
  deriving DecidableEq, Repr

/-- JS `sessionId || undefined`: the empty string is falsy and becomes
`undefined`. -/
def jsOrUndefined : Option String → Option String
  | some s => if s = "" then none else some s
  | none => none

/-- The `hostConfig` JSON built by `ProcessManager.connectOrSpawn` when no
running host answers: socket and PID paths are `/tmp/bareclaw-<channel>.sock`
and `.pid`, and `resumeSessionId` is `this.sessions.get(channel) || undefined`. -/
def mkHostConfig (cfg : Config) (sessions : SessionDoc) (channel : String) :
    HostConfig :=
  { channel := channel
    socketPath := "/tmp/bareclaw-" ++ channel ++ ".sock"
    pidFile := "/tmp/bareclaw-" ++ channel ++ ".pid"
    cwd := cfg.cwd
    maxTurns := cfg.maxTurns
    allowedTools := cfg.allowedTools
    resumeSessionId := jsOrUndefined (mapGet sessions channel) }

/-- The system-prompt suffix built from a host channel context. -/
def appendSystemPrompt (cc : HostChannelContext) : String :=
  "You are operating on BAREclaw channel \"" ++ cc.channel
    ++ "\" (adapter: " ++ cc.adapter ++ ")."

namespace SessionHost

/-- The argv `spawnClaude` builds for the agent binary.  `lastSessionId` is the
host's current resume identifier (initialised to `config.resumeSessionId`). -/
def spawnArgs (cfg : HostConfig) (lastSessionId : Option String) : List String :=
  ["-p", "--input-format", "stream-json", "--output-format", "stream-json",
   "--verbose", "--max-turns", toString cfg.maxTurns,
   "--allowedTools", cfg.allowedTools]
  ++ (match lastSessionId with
      | some sid => ["--resume", sid]
      | none => [])
  ++ (match cfg.channelContext with
      | some cc => ["--append-system-prompt", appendSystemPrompt cc]
      | none => [])

/-- The host state the exit handler reads: whether a socket client is
connected, and the current resume identifier. -/
structure HostState where
  clientConnected : Bool
  lastSessionId : Option String
  deriving DecidableEq, Repr

/-- The `result` string of the synthetic completion written by the host's
`claude.on('exit')` handler (note the trailing newline inside the field, and
the conditional " with resume" suffix). -/
def exitText (code : Int) (hasResume : Bool) : String :=
  "[Session ended (exit code " ++ toString code
    ++ "). Next message will start a fresh session"
    ++ (if hasResume then " with resume" else "") ++ ".]\n"

/-- Exit handler `claude.on('exit')`: when a client is connected, write exactly one
synthetic completion line to it; otherwise write nothing. -/
def onClaudeExit (h : HostState) (code : Int) : List ClaudeEvent :=
  if h.clientConnected then
    [{ type := "result",
       result := some (exitText code h.lastSessionId.isSome),
       is_error := some true }]
  else []

end SessionHost

/- ===== Per-channel dispatch machine (ProcessManager) ===== -/

namespace ProcessManager

/-- Dispatch `ProcessManager.dispatch` (with `timeoutMs = 0`, so no timer): set
`busy = true`, record the start time, install the event handler holding the
caller's resolver and `onEvent`, and write one framed `user` line with the
content to the host socket. -/
def dispatch (c : Chan) (o : Obs) (now : Nat) (mid : Nat)
    (content : MessageContent) (onEvent : Option Nat) : Chan × Obs :=
  ({ c with busy := true, eventHandler := some { mid := mid, onEvent := onEvent, start := now } },
   { o with writes := o.writes ++ [content] })

/-- The `coalesced: true` placeholder resolution
`{text: '', duration_ms: 0, coalesced: true}`. -/
def coalescedPlaceholder : SendMessageResponse :=
  { text := "", duration_ms := 0, coalesced := some true }

/-- Draining `ProcessManager.drainQueue`: take the whole queue (`splice(0)`) as a
batch; a single entry dispatches directly; when every entry's content is a
plain string, join the texts with `"\n\n"`, resolve all but the last with the
coalesced placeholder and dispatch the combined text under the last entry's
resolver and `onEvent`; otherwise dispatch the first entry and `unshift` the
remainder back onto the (just-emptied) queue. -/
def drainQueue (c : Chan) (o : Obs) (now : Nat) : Chan × Obs :=
  match c.queue with
  | [] => (c, o)
  | [msg] => dispatch { c with queue := [] } o now msg.mid msg.content msg.onEvent
  | q1 :: q2 :: qs =>
      let batch := q1 :: q2 :: qs
      if batch.all (fun m => m.content.isStr) then
        let combinedText := String.intercalate "\n\n" (batch.map (fun m => m.content.asString))
        let o1 := { o with settlements :=
          o.settlements ++ batch.dropLast.map (fun m => ⟨m.mid, .resolved coalescedPlaceholder⟩) }
        let last := batch.getLastD q1
        dispatch { c with queue := [] } o1 now last.mid (.str combinedText) last.onEvent
      else
        dispatch { c with queue := q2 :: qs } o now q1.mid q1.content q1.onEvent

/-- The spec's statement of the coalescing algorithm (§4.1 drainQueue,
steps 1–5), written from the spec's words for comparison with the code's
`drainQueue`: empty queue returns; the whole queue is taken atomically as a
batch; a one-entry batch is dispatched directly; an all-text batch joins the
texts with a blank-line separator, resolves every entry except the last with
`{text: '', duration_ms: 0, coalesced: true}` and dispatches the combined
text using the last entry's `onEvent`; otherwise the first entry is
dispatched alone and the remainder goes back at the head of the queue in
original order. -/
def drainQueueSpec (c : Chan) (o : Obs) (now : Nat) : Chan × Obs :=
  match c.queue with
  | [] => (c, o)
  | b0 :: brest =>
      let batch := b0 :: brest
      if batch.length = 1 then
        dispatch { c with queue := [] } o now b0.mid b0.content b0.onEvent
      else if batch.all (fun m => m.content.isStr) then
        let combined := String.intercalate "\n\n" (batch.map (fun m => m.content.asString))
        let earlier := batch.take (batch.length - 1)
        let last := batch.getLastD b0
        let o1 := { o with settlements :=
          o.settlements ++ earlier.map (fun m => ⟨m.mid, .resolved coalescedPlaceholder⟩) }
        dispatch { c with queue := [] } o1 now last.mid (.str combined) last.onEvent
      else
        dispatch { c with queue := brest } o now b0.mid b0.content b0.onEvent

/-- Full single-channel manager state: the managed channel, its observable
history, the session map, the sequence of session-file rewrites, and the
clock. -/
structure MState where
  chan : Chan
  obs : Obs
  sessions : SessionDoc
  saves : List SessionDoc
  now : Nat
  deriving DecidableEq, Repr

/-- A state of the manager for a channel just connected: idle, empty queue,
no handler, nothing written or settled. -/
def initMState : MState :=
  { chan := { busy := false, queue := [], eventHandler := none }
    obs := { writes := [], settlements := [], completed := 0 }
    sessions := []
    saves := []
    now := 0 }

/-- Sending `ProcessManager.send` on a connected channel: if the channel is busy,
push the message onto the queue (the caller's promise stays pending);
otherwise dispatch it. -/
def send (s : MState) (mid : Nat) (content : MessageContent)
    (onEvent : Option Nat) : MState :=
  if s.chan.busy then
    { s with chan := { s.chan with
        queue := s.chan.queue ++ [{ mid := mid, content := content, onEvent := onEvent }] } }
  else
    let co := dispatch s.chan s.obs s.now mid content onEvent
    { s with chan := co.1, obs := co.2 }

/-- The `rl.on('line', ...)` handler installed by `tryConnect`, one framed
line at a time: `_stderr` lines only log; a `result` line carrying a
`session_id` updates the session map and rewrites the session file; then, if
an event handler is installed, it runs — on a `result` event it clears
itself, clears `busy`, resolves the caller with
`{text: event.result || '', duration_ms, is_error: event.is_error || false}`
(a `result` consumption, counted in `completed`) and invokes `drainQueue`. -/
def lineStep (channel : String) (s : MState) (e : ClaudeEvent) : MState :=
  if e.type = "_stderr" then s
  else
    let s1 :=
      if e.type = "result" ∧ e.session_id.isSome then
        let sess := mapSet s.sessions channel (e.session_id.getD "")
        { s with sessions := sess, saves := s.saves ++ [saveSessionsDoc sess] }
      else s
    match s1.chan.eventHandler with
    | none => s1
    | some h =>
        if e.type = "result" then
          let response : SendMessageResponse :=
            { text := (e.result.getD "")
              duration_ms := s1.now - h.start
              is_error := some (e.is_error.getD false) }
          let c1 : Chan := { s1.chan with eventHandler := none, busy := false }
          let o1 : Obs := { s1.obs with
            settlements := s1.obs.settlements ++ [⟨h.mid, .resolved response⟩]
            completed := s1.obs.completed + 1 }
          let co := drainQueue c1 o1 s1.now
          { s1 with chan := co.1, obs := co.2 }
        else s1

/-- An atomic event-loop turn touching one connected channel. -/
inductive Act where
  | send (mid : Nat) (content : MessageContent) (onEvent : Option Nat)
  | line (e : ClaudeEvent)

/-- One machine step. -/
def mstep (channel : String) (s : MState) : Act → MState
  | .send mid content onEvent => send s mid content onEvent
  | .line e => lineStep channel s e

/-- The serialization invariant: the event handler is installed exactly when
the channel is busy, and the number of framed user lines written to the
socket exceeds the number of consumed `result` events exactly by the
in-flight dispatch (one when busy, zero when idle). -/
abbrev Inv (s : MState) : Prop :=
  s.chan.eventHandler.isSome = s.chan.busy ∧
  s.obs.writes.length = s.obs.completed + (if s.chan.busy then 1 else 0)

/-- Channel-map-level state for the socket-close handler: `managed = none`
means the channel was deleted from `this.channels`. -/
structure OState where
  managed : Option Chan
  settlements : List Settlement
  deriving DecidableEq, Repr

/-- The `socket.on('close')` handler from `tryConnect`: delete the channel
from the map and reject every queued message with
`new Error('Session host disconnected')`.  Nothing else is settled. -/
def socketClose (st : OState) : OState :=
  match st.managed with
  | none => st
  | some c =>
      { managed := none
        settlements := st.settlements
          ++ c.queue.map (fun q => ⟨q.mid, .rejected "Session host disconnected"⟩) }

end ProcessManager

/- ===== Channel context header (spec §4.1 "Context prefix") ===== -/

/-- Context `ChannelContext` from `types.ts`: metadata about the channel a message
originates from. -/
structure ChannelContext where
  channel : String
  adapter : String
  userName : Option String := none
  chatTitle : Option String := none
  topicName : Option String := none
  deriving DecidableEq, Repr

/-- Modelled from the spec: the bracketed context header the Channel Manager
builds from a `ChannelContext`.  The adapters in the repository call the
four-argument `send(channel, content, context, onEvent)`, but the
`ProcessManager` source included here predates the context argument, so the
header construction is taken from the spec's format
`[channel: <c>, adapter: <a>, user: <u>, chat: <t>, topic: <n>]` with
omitted fields omitted. -/
def contextHeader (ctx : ChannelContext) : String :=
  "[channel: " ++ ctx.channel ++ ", adapter: " ++ ctx.adapter
    ++ (match ctx.userName with
        | some u => ", user: " ++ u
        | none => "")
    ++ (match ctx.chatTitle with
        | some t => ", chat: " ++ t
        | none => "")
    ++ (match ctx.topicName with
        | some n => ", topic: " ++ n
        | none => "")
    ++ "]"

/-- Modelled from the spec: what the Channel Manager dispatches when a
`ChannelContext` accompanies the send — the header plus a newline prepended
to string content, an equivalent text block inserted at the start of block
content, and the content unchanged when no context is given. -/
def applyContext : Option ChannelContext → MessageContent → MessageContent
  | none, content => content
  | some ctx, .str s => .str (contextHeader ctx ++ "\n" ++ s)
  | some ctx, .blocks bs => .blocks (.text (contextHeader ctx ++ "\n") :: bs)

/-- The synthetic-completion text exactly as the claim (and spec §4.2) word
it: no trailing newline, unconditional " with resume" suffix.  Kept separate
from `SessionHost.exitText` so the two can be compared. -/
def claimedExitText (code : Int) : String :=
  "[Session ended (exit code " ++ toString code
    ++ "). Next message will start a fresh session with resume.]"

/-- A concrete channel-map state: one managed channel, busy with in-flight
dispatch `mid = 7`, one queued message `mid = 8`, nothing settled. -/
def closeExample : ProcessManager.OState :=
  { managed := some
      { busy := true
        queue := [{ mid := 8, content := .str "b", onEvent := none }]
        eventHandler := some { mid := 7, onEvent := none, start := 0 } }
    settlements := [] }

/-- A concrete manager state with a dispatch in flight (`mid = 3`, started at
time 5) and an empty queue. -/
def exitMState : ProcessManager.MState :=
  { chan := { busy := true, queue := [],
              eventHandler := some { mid := 3, onEvent := none, start := 5 } }
    obs := { writes := [.str "hi"], settlements := [], completed := 1 }
    sessions := []
    saves := []
    now := 12 }

/- ===================================================================
   Theorems
   =================================================================== -/

/- ===== helper lemmas on the JS-Map association list ===== -/

theorem mapGet_mapSet_self {α : Type} (l : List (String × α)) (k : String) (v : α) :
    mapGet (mapSet l k v) k = some v := by
  induction l with
  | nil => simp [mapSet, mapGet]
  | cons e rest ih =>
      obtain ⟨k', v'⟩ := e
      by_cases h : k' = k
      · simp [mapSet, mapGet, h]
      · simp [mapSet, mapGet, h, ih]

theorem mapSet_append_of_not_mem {α : Type} (l : List (String × α)) (k : String)
    (v : α) (hk : k ∉ l.map Prod.fst) : mapSet l k v = l ++ [(k, v)] := by
  induction l with
  | nil => simp [mapSet]
  | cons e rest ih =>
      obtain ⟨k', v'⟩ := e
      simp only [List.map_cons, List.mem_cons, not_or] at hk
      simp [mapSet, Ne.symm hk.1, ih hk.2]

theorem foldl_mapSet_eq_append {α : Type} (l : List (String × α)) :
    ∀ acc : List (String × α), (acc.map Prod.fst ++ l.map Prod.fst).Nodup →
      l.foldl (fun m e => mapSet m e.1 e.2) acc = acc ++ l := by
  induction l with
  | nil => intro acc _; simp
  | cons e t ih =>
      intro acc h
      obtain ⟨k, v⟩ := e
      have hnd := h
      rw [List.nodup_append] at hnd
      have hk : k ∉ acc.map Prod.fst := by
        intro hmem
        exact hnd.2.2 hmem (by simp)
      have hstep : mapSet acc k v = acc ++ [(k, v)] :=
        mapSet_append_of_not_mem acc k v hk
      have hnext : (((acc ++ [(k, v)]).map Prod.fst) ++ t.map Prod.fst).Nodup := by
        simpa [List.append_assoc] using h
      calc ((k, v) :: t).foldl (fun m e => mapSet m e.1 e.2) acc
          = t.foldl (fun m e => mapSet m e.1 e.2) (mapSet acc k v) := by simp
        _ = (acc ++ [(k, v)]) ++ t := by rw [hstep]; exact ih _ hnext
        _ = acc ++ (k, v) :: t := by simp

theorem rebuild_eq (l : SessionDoc) (h : (l.map Prod.fst).Nodup) :
    l.foldl (fun m e => mapSet m e.1 e.2) [] = l := by
  simpa using foldl_mapSet_eq_append l [] (by simpa using h)

theorem saveSessionsDoc_eq (sessions : SessionDoc)
    (h : (sessions.map Prod.fst).Nodup) : saveSessionsDoc sessions = sessions :=
  rebuild_eq sessions h

theorem loadSessions_save (sessions : SessionDoc)
    (h : (sessions.map Prod.fst).Nodup) :
    loadSessions (saveSessionsDoc sessions) = sessions := by
  rw [saveSessionsDoc_eq sessions h]
  exact rebuild_eq sessions h

theorem find?_first_match (channel : String) (l₁ l₂ : List (String × PushHandler))
    (pfx : String) (h : PushHandler)
    (h1 : ∀ e ∈ l₁, strStartsWith channel e.1 = false)
    (h2 : strStartsWith channel pfx = true) :
    (l₁ ++ (pfx, h) :: l₂).find? (fun e => strStartsWith channel e.1)
      = some (pfx, h) := by
  induction l₁ with
  | nil => simp [List.find?_cons_of_pos, h2]
  | cons e t ih =>
      have he := h1 e (by simp)
      rw [List.cons_append]
      simp only [List.find?_cons, he, cond_false]
      exact ih (fun x hx => h1 x (by simp [hx]))

/- ===== C7: push registry routing ===== -/

/-- C7.  `PushRegistry.send(channel, text)` dispatches to the first
registered handler whose prefix is a leading substring of the channel and
returns that handler's boolean result; when no registered prefix matches it
returns `false` and calls no handler; `register` makes the last writer win
per prefix. -/
theorem pushRegistry_send_first_match :
    (∀ (r : PushRegistry) (channel text : String),
        (∀ e ∈ r.handlers, strStartsWith channel e.1 = false) →
          r.send channel text = (none, false)) ∧
    (∀ (l₁ l₂ : List (String × PushHandler)) (pfx : String) (h : PushHandler)
        (channel text : String),
        (∀ e ∈ l₁, strStartsWith channel e.1 = false) →
        strStartsWith channel pfx = true →
          PushRegistry.send ⟨l₁ ++ (pfx, h) :: l₂⟩ channel text
            = (some pfx, h channel text)) ∧
    (∀ (r : PushRegistry) (pfx : String) (h₁ h₂ : PushHandler),
        mapGet ((r.register pfx h₁).register pfx h₂).handlers pfx = some h₂) := by
  refine ⟨?_, ?_, ?_⟩
  · intro r channel text hnone
    have hfind : r.handlers.find? (fun e => strStartsWith channel e.1) = none := by
      rw [List.find?_eq_none]
      intro x hx
      simp [hnone x hx]
    simp [PushRegistry.send, hfind]
  · intro l₁ l₂ pfx h channel text h1 h2
    have hfind := find?_first_match channel l₁ l₂ pfx h h1 h2
    simp [PushRegistry.send, hfind]
  · intro r pfx h₁ h₂
    exact mapGet_mapSet_self _ pfx h₂

/-- C7 witness: a registry with a `tg-` handler routes `tg-42` to it and
returns the handler's result. -/
theorem pushRegistry_send_first_match_witness :
    PushRegistry.send ⟨[("tg-", fun _ _ => true)]⟩ "tg-42" "ping"
      = (some "tg-", true) :=
  pushRegistry_send_first_match.2.1 [] [] "tg-" (fun _ _ => true) "tg-42" "ping"
    (by simp) (by decide)

/- ===== C6: session persistence round-trip ===== -/

/-- C6.  After a session identifier is persisted for a channel and the
Channel Manager restarts (reloading the session file), the first send that
spawns a session host for that channel passes the persisted identifier as
`resumeSessionId` in the host configuration, and the host's `spawnClaude`
launches the agent with `--resume <identifier>`. -/
theorem session_resume_roundtrip (cfg : Config) (sessions : SessionDoc)
    (channel sid : String) (hnd : (sessions.map Prod.fst).Nodup)
    (hget : mapGet sessions channel = some sid) (hne : sid ≠ "") :
    mapGet (loadSessions (saveSessionsDoc sessions)) channel = some sid ∧
    (mkHostConfig cfg (loadSessions (saveSessionsDoc sessions)) channel).resumeSessionId
      = some sid ∧
    SessionHost.spawnArgs (mkHostConfig cfg (loadSessions (saveSessionsDoc sessions)) channel)
        (mkHostConfig cfg (loadSessions (saveSessionsDoc sessions)) channel).resumeSessionId
      = ["-p", "--input-format", "stream-json", "--output-format", "stream-json",
         "--verbose", "--max-turns", toString cfg.maxTurns,
         "--allowedTools", cfg.allowedTools, "--resume", sid] := by
  rw [loadSessions_save sessions hnd]
  refine ⟨hget, ?_, ?_⟩
  · simp [mkHostConfig, jsOrUndefined, hget, hne]
  · simp [SessionHost.spawnArgs, mkHostConfig, jsOrUndefined, hget, hne]

/-- C6 witness: round-trip at the concrete record `{"http": "abc123"}`. -/
theorem session_resume_roundtrip_witness :
    mapGet (loadSessions (saveSessionsDoc [("http", "abc123")])) "http"
        = some "abc123" ∧
    SessionHost.spawnArgs
        (mkHostConfig ⟨"/work", "claude-sessions.json", 50, "Bash", 0⟩
          (loadSessions (saveSessionsDoc [("http", "abc123")])) "http")
        (mkHostConfig ⟨"/work", "claude-sessions.json", 50, "Bash", 0⟩
          (loadSessions (saveSessionsDoc [("http", "abc123")])) "http").resumeSessionId
      = ["-p", "--input-format", "stream-json", "--output-format", "stream-json",
         "--verbose", "--max-turns", "50", "--allowedTools", "Bash",
         "--resume", "abc123"] := by
  have h := session_resume_roundtrip ⟨"/work", "claude-sessions.json", 50, "Bash", 0⟩
    [("http", "abc123")] "http" "abc123" (by decide) (by decide) (by decide)
  exact ⟨h.1, h.2.2⟩

/- ===== C9: session-record persistence is direct, best-effort ===== -/

/-- C9 counterexample.  The claim says `saveSessions` writes the document to
a sibling temporary file and atomically renames it into place; in the code
it is a single direct `writeFileSync` to the session file — at the concrete
record `{"http": "abc"}` no such write-then-rename operation sequence
exists. -/
theorem saveSessions_not_atomic_counterexample :
    ¬ ∃ tmp : String,
        (saveSessions "/work/claude-sessions.json" [("http", "abc")] true).1
          = [FsOp.writeFile tmp (saveSessionsDoc [("http", "abc")]),
             FsOp.rename tmp "/work/claude-sessions.json"] := by
  rintro ⟨tmp, h⟩
  simp [saveSessions] at h

/-- C9 (amended).  `saveSessions` performs a single direct write of the full
JSON document to the session file (no temporary file, no rename), and a
write failure is logged but never propagated to the caller. -/
theorem saveSessions_direct_write (path : String) (sessions : SessionDoc)
    (writeOk : Bool) :
    (saveSessions path sessions writeOk).1
        = [FsOp.writeFile path (saveSessionsDoc sessions)] ∧
    (saveSessions path sessions writeOk).2.2 = false ∧
    ((saveSessions path sessions writeOk).2.1 = true ↔ writeOk = false) := by
  refine ⟨rfl, rfl, ?_⟩
  cases writeOk <;> simp [saveSessions]

/- ===== C10: result events without a session_id are frame-preserving ===== -/

/-- C10.  A framed line whose event carries no `session_id` — in particular
the host's synthetic agent-exit completion — leaves both the in-memory
session map and the sequence of session-file writes unchanged: the line
handler updates and rewrites the session record only when a `result` event
contains a `session_id`. -/
theorem result_without_session_id_frame (channel : String)
    (s : ProcessManager.MState) (e : ClaudeEvent)
    (hsid : e.session_id = none) :
    (ProcessManager.lineStep channel s e).sessions = s.sessions ∧
    (ProcessManager.lineStep channel s e).saves = s.saves := by
  unfold ProcessManager.lineStep
  split
  · exact ⟨rfl, rfl⟩
  · split
    · rename_i hc
      rw [hsid] at hc
      simp at hc
    · cases hh : s.chan.eventHandler with
      | none => simp [hh]
      | some hd =>
          by_cases ht : e.type = "result"
          · simp [hh, ht]
          · simp [hh, ht]

/-- C10 witness: the synthetic agent-exit completion (which has no
`session_id`) applied to a concrete in-flight state changes neither the
session map nor the saved documents. -/
theorem result_without_session_id_frame_witness :
    (ProcessManager.lineStep "http" exitMState
        { type := "result", result := some (SessionHost.exitText 1 true),
          is_error := some true }).sessions = exitMState.sessions ∧
    (ProcessManager.lineStep "http" exitMState
        { type := "result", result := some (SessionHost.exitText 1 true),
          is_error := some true }).saves = exitMState.saves :=
  result_without_session_id_frame "http" exitMState _ rfl

/- ===== C8: channel-context header ===== -/

/-- C8.  When a `ChannelContext` accompanies a send, the dispatched content
carries a single bracketed header `[channel: <c>, adapter: <a>, user: <u>,
chat: <t>, topic: <n>]` plus newline, prepended to string content or
inserted as a text block at the start of block content, with omitted fields
omitted; with no context the content is dispatched unchanged.
(The context-prepending send variant is modelled from the spec, see
`contextHeader`.) -/
theorem context_header_form :
    (∀ content, applyContext none content = content) ∧
    (∀ c a u t n s, applyContext
        (some { channel := c, adapter := a, userName := some u,
                chatTitle := some t, topicName := some n }) (.str s)
      = .str ("[channel: " ++ c ++ ", adapter: " ++ a ++ ", user: " ++ u
          ++ ", chat: " ++ t ++ ", topic: " ++ n ++ "]" ++ "\n" ++ s)) ∧
    (∀ c a s, applyContext
        (some { channel := c, adapter := a }) (.str s)
      = .str ("[channel: " ++ c ++ ", adapter: " ++ a ++ "]" ++ "\n" ++ s)) ∧
    (∀ ctx bs, applyContext (some ctx) (.blocks bs)
      = .blocks (.text (contextHeader ctx ++ "\n") :: bs)) := by
  refine ⟨fun content => rfl, ?_, ?_, fun ctx bs => rfl⟩
  · intro c a u t n s
    simp [applyContext, contextHeader, String.append_assoc]
  · intro c a s
    simp [applyContext, contextHeader, String.append_assoc]

/- ===== helper lemmas on the dispatch machine ===== -/

theorem dropLast_append_getLastD {α : Type} (a d : α) (l : List α) :
    (a :: l).dropLast ++ [(a :: l).getLastD d] = a :: l := by
  induction l generalizing a d with
  | nil => simp
  | cons b t ih =>
      rw [List.dropLast_cons₂, List.getLastD_cons]
      simpa using ih b a

/- ===== C2: drainQueue matches the spec's coalescing algorithm ===== -/

/-- C2.  `drainQueue` implements exactly the coalescing algorithm the spec
states: empty queue returns; the whole queue is atomically taken as a batch;
a single entry is dispatched directly; an all-plain-text batch joins the
texts with a blank-line separator `"\n\n"`, resolves every entry except the
last immediately with `{text: "", duration_ms: 0, coalesced: true}` and
dispatches the combined text with the last entry's `onEvent`; otherwise the
first entry is dispatched alone and the remainder is put back at the head of
the queue in original order. -/
theorem drainQueue_follows_spec (c : Chan) (o : Obs) (now : Nat) :
    ProcessManager.drainQueue c o now = ProcessManager.drainQueueSpec c o now := by
  rcases hq : c.queue with _ | ⟨q1, _ | ⟨q2, qs⟩⟩
  · simp [ProcessManager.drainQueue, ProcessManager.drainQueueSpec, hq]
  · simp [ProcessManager.drainQueue, ProcessManager.drainQueueSpec, hq]
  · simp [ProcessManager.drainQueue, ProcessManager.drainQueueSpec, hq,
      List.dropLast_eq_take]

/- ===== C3: coalescing never drops a message ===== -/

/-- C3.  For any nonempty batch taken by `drainQueue`, the batch is
partitioned without loss: some entries are settled immediately (each with
the `{text: "", duration_ms: 0, coalesced: true}` placeholder), exactly one
entry is handed to `dispatch` (its settlement arrives with the dispatched
result), and the remaining entries are re-queued for a later drain — the
identities add up exactly to the batch, so every queued message is settled
exactly once and at most one settlement per batch lacks `coalesced = true`. -/
theorem coalescing_never_drops (c : Chan) (o : Obs) (now : Nat)
    (hne : c.queue ≠ []) :
    ∃ (newSts : List Settlement) (hd : Handler),
      (ProcessManager.drainQueue c o now).2.settlements = o.settlements ++ newSts ∧
      (ProcessManager.drainQueue c o now).1.eventHandler = some hd ∧
      newSts.map Settlement.mid ++ [hd.mid]
          ++ ((ProcessManager.drainQueue c o now).1.queue.map QueuedMessage.mid)
        = c.queue.map QueuedMessage.mid ∧
      (∀ st ∈ newSts, st.outcome
        = .resolved { text := "", duration_ms := 0, coalesced := some true }) ∧
      newSts.length + 1 + (ProcessManager.drainQueue c o now).1.queue.length
        = c.queue.length := by
  rcases hq : c.queue with _ | ⟨q1, _ | ⟨q2, qs⟩⟩
  · exact absurd hq hne
  · refine ⟨[], { mid := q1.mid, onEvent := q1.onEvent, start := now }, ?_, ?_, ?_, ?_, ?_⟩ <;>
      simp [ProcessManager.drainQueue, ProcessManager.dispatch, hq]
  · by_cases hall : (q1 :: q2 :: qs).all (fun m => m.content.isStr)
    · have hmap := congrArg (List.map QueuedMessage.mid)
        (dropLast_append_getLastD q1 q1 (q2 :: qs))
      rw [List.map_append] at hmap
      refine ⟨(q1 :: q2 :: qs).dropLast.map
          (fun m => ⟨m.mid, .resolved ProcessManager.coalescedPlaceholder⟩),
        { mid := ((q1 :: q2 :: qs).getLastD q1).mid,
          onEvent := ((q1 :: q2 :: qs).getLastD q1).onEvent, start := now },
        ?_, ?_, ?_, ?_, ?_⟩
      · simp [ProcessManager.drainQueue, ProcessManager.dispatch, hq, hall]
      · simp [ProcessManager.drainQueue, ProcessManager.dispatch, hq, hall]
      · simp only [ProcessManager.drainQueue, ProcessManager.dispatch, hq, hall,
          if_true, List.map_map]
        simpa using hmap
      · intro st hst
        simp only [List.mem_map] at hst
        obtain ⟨m, _, rfl⟩ := hst
        rfl
      · simp [ProcessManager.drainQueue, ProcessManager.dispatch, hq, hall,
          List.length_dropLast]
    · refine ⟨[], { mid := q1.mid, onEvent := q1.onEvent, start := now },
        ?_, ?_, ?_, ?_, ?_⟩
      · simp [ProcessManager.drainQueue, ProcessManager.dispatch, hq, hall]
      · simp [ProcessManager.drainQueue, ProcessManager.dispatch, hq, hall]
      · simp [ProcessManager.drainQueue, ProcessManager.dispatch, hq, hall]
      · simp [ProcessManager.drainQueue, ProcessManager.dispatch, hq, hall]
      · simp [ProcessManager.drainQueue, ProcessManager.dispatch, hq, hall]
        omega

/-- C3 witness: two plain-text messages queued behind a busy dispatch are
both accounted for when the queue drains. -/
theorem coalescing_never_drops_witness :
    ∃ (newSts : List Settlement) (hd : Handler),
      (ProcessManager.drainQueue
          { busy := false,
            queue := [{ mid := 1, content := .str "A", onEvent := none },
                      { mid := 2, content := .str "B", onEvent := none }],
            eventHandler := none }
          { writes := [], settlements := [], completed := 0 } 3).2.settlements
        = [] ++ newSts ∧
      (ProcessManager.drainQueue
          { busy := false,
            queue := [{ mid := 1, content := .str "A", onEvent := none },
                      { mid := 2, content := .str "B", onEvent := none }],
            eventHandler := none }
          { writes := [], settlements := [], completed := 0 } 3).1.eventHandler
        = some hd ∧
      newSts.map Settlement.mid ++ [hd.mid]
          ++ ((ProcessManager.drainQueue
          { busy := false,
            queue := [{ mid := 1, content := .str "A", onEvent := none },
                      { mid := 2, content := .str "B", onEvent := none }],
            eventHandler := none }
          { writes := [], settlements := [], completed := 0 } 3).1.queue.map
            QueuedMessage.mid)
        = [1, 2] ∧
      (∀ st ∈ newSts, st.outcome
        = .resolved { text := "", duration_ms := 0, coalesced := some true }) ∧
      newSts.length + 1
          + (ProcessManager.drainQueue
          { busy := false,
            queue := [{ mid := 1, content := .str "A", onEvent := none },
                      { mid := 2, content := .str "B", onEvent := none }],
            eventHandler := none }
          { writes := [], settlements := [], completed := 0 } 3).1.queue.length
        = 2 :=
  coalescing_never_drops
    { busy := false,
      queue := [{ mid := 1, content := .str "A", onEvent := none },
                { mid := 2, content := .str "B", onEvent := none }],
      eventHandler := none }
    { writes := [], settlements := [], completed := 0 } 3 (by decide)

/- ===== C1: at most one dispatch in flight per channel ===== -/

theorem drainQueue_shape (c : Chan) (o : Obs) (now : Nat) :
    (c.queue = [] ∧ ProcessManager.drainQueue c o now = (c, o)) ∨
    ((ProcessManager.drainQueue c o now).1.busy = true ∧
     (ProcessManager.drainQueue c o now).1.eventHandler.isSome = true ∧
     (ProcessManager.drainQueue c o now).2.writes.length = o.writes.length + 1 ∧
     (ProcessManager.drainQueue c o now).2.completed = o.completed) := by
  rcases hq : c.queue with _ | ⟨q1, _ | ⟨q2, qs⟩⟩
  · left
    exact ⟨rfl, by simp [ProcessManager.drainQueue, hq]⟩
  · right
    simp [ProcessManager.drainQueue, ProcessManager.dispatch, hq]
  · right
    by_cases hall : (q1 :: q2 :: qs).all (fun m => m.content.isStr) <;>
      simp [ProcessManager.drainQueue, ProcessManager.dispatch, hq, hall]

/-- C1.  Per-channel dispatch is serialized: in any state satisfying the
invariant `Inv` — handler installed iff busy, and framed user lines written
to the socket exceed consumed `result` events by exactly the in-flight
dispatch — every step (a `send` or an incoming socket line) preserves the
invariant, and a `send` that finds the channel busy appends its message to
the queue and writes nothing to the socket.  So a second framed user line
only ever reaches the socket after a `result` event has cleared `busy`. -/
theorem at_most_one_dispatch_in_flight (channel : String)
    (s : ProcessManager.MState) (hInv : ProcessManager.Inv s) :
    (∀ a : ProcessManager.Act, ProcessManager.Inv (ProcessManager.mstep channel s a)) ∧
    (s.chan.busy = true → ∀ (mid : Nat) (content : MessageContent) (onEvent : Option Nat),
      (ProcessManager.mstep channel s (.send mid content onEvent)).obs = s.obs ∧
      (ProcessManager.mstep channel s (.send mid content onEvent)).chan.queue
        = s.chan.queue ++ [{ mid := mid, content := content, onEvent := onEvent }]) := by
  constructor
  · rintro (⟨mid, content, onEvent⟩ | e)
    · by_cases hb : s.chan.busy = true
      · simpa [ProcessManager.mstep, ProcessManager.send, ProcessManager.Inv, hb] using hInv
      · have h2 := hInv.2
        rw [if_neg hb] at h2
        constructor
        · simp [ProcessManager.mstep, ProcessManager.send, hb, ProcessManager.dispatch]
        · simp [ProcessManager.mstep, ProcessManager.send, hb, ProcessManager.dispatch]
          omega
    · show ProcessManager.Inv (ProcessManager.lineStep channel s e)
      unfold ProcessManager.lineStep
      split
      · exact hInv
      · split
        all_goals
          rename_i hcap
        case' isTrue =>
          set s1 : ProcessManager.MState :=
            { s with
              sessions := mapSet s.sessions channel (e.session_id.getD "")
              saves := s.saves ++ [saveSessionsDoc
                (mapSet s.sessions channel (e.session_id.getD ""))] } with hs1
        case' isFalse =>
          set s1 : ProcessManager.MState := s with hs1
        all_goals
          have hInv1 : ProcessManager.Inv s1 := hInv
          clear_value s1
          cases hh : s1.chan.eventHandler with
          | none => simpa [ProcessManager.Inv, hh] using hInv1
          | some hd =>
              by_cases ht : e.type = "result"
              · simp only [hh, ht, if_true]
                have hbusy : s1.chan.busy = true := by
                  have := hInv1.1
                  rw [hh] at this
                  simpa using this.symm
                have hw : s1.obs.writes.length = s1.obs.completed + 1 := by
                  have := hInv1.2
                  rwa [hbusy, if_pos rfl] at this
                rcases drainQueue_shape
                    { s1.chan with eventHandler := none, busy := false }
                    { s1.obs with
                      settlements := s1.obs.settlements ++ [⟨hd.mid, .resolved
                        { text := e.result.getD ""
                          duration_ms := s1.now - hd.start
                          is_error := some (e.is_error.getD false) }⟩]
                      completed := s1.obs.completed + 1 }
                    s1.now with ⟨_, heq⟩ | ⟨hb', hh', hw', hc'⟩
                · refine ⟨?_, ?_⟩ <;> simp [heq, hw]
                · refine ⟨?_, ?_⟩ <;> simp [hb', hh', hw', hc', hw]
              · simpa [ProcessManager.Inv, hh, ht] using hInv1
  · intro hb mid content onEvent
    constructor
    · simp [ProcessManager.mstep, ProcessManager.send, hb]
    · simp [ProcessManager.mstep, ProcessManager.send, hb]

/-- C1 witness: the invariant holds in the freshly connected state and is
preserved by a first send. -/
theorem at_most_one_dispatch_in_flight_witness :
    ProcessManager.Inv (ProcessManager.mstep "http" ProcessManager.initMState
      (.send 0 (.str "hello") none)) :=
  (at_most_one_dispatch_in_flight "http" ProcessManager.initMState (by decide)).1
    (.send 0 (.str "hello") none)

/- ===== C4: socket close ===== -/

/-- C4 counterexample.  In a state with an in-flight dispatch (`mid = 7`)
and one queued message (`mid = 8`), the socket-close handler settles the
queued message but produces no settlement at all for the in-flight one —
contradicting the claim that the in-flight message also fails with the
disconnect error. -/
theorem socket_close_inflight_counterexample :
    (closeExample.managed.map Chan.eventHandler
        = some (some { mid := 7, onEvent := none, start := 0 })) ∧
    ¬ ∃ st ∈ (ProcessManager.socketClose closeExample).settlements,
        st.mid = 7 := by decide

/-- C4 (amended).  When the host socket closes, every message waiting in the
channel's queue is rejected with the `Session host disconnected` error and
the managed channel is removed from the channel map (so a subsequent send
reconnects or respawns); the message currently in flight is not settled by
the close handler — its promise simply stays pending. -/
theorem socket_close_rejects_queued (st : ProcessManager.OState) (c : Chan)
    (hm : st.managed = some c) :
    (ProcessManager.socketClose st).managed = none ∧
    (ProcessManager.socketClose st).settlements
      = st.settlements
        ++ c.queue.map (fun q => ⟨q.mid, .rejected "Session host disconnected"⟩) ∧
    (∀ hd : Handler, c.eventHandler = some hd →
      (∀ q ∈ c.queue, q.mid ≠ hd.mid) →
      ∀ st' ∈ (ProcessManager.socketClose st).settlements,
        st'.mid = hd.mid → st' ∈ st.settlements) := by
  unfold ProcessManager.socketClose
  rw [hm]
  refine ⟨rfl, rfl, ?_⟩
  intro hd _ hqm st' hmem hmid
  rcases List.mem_append.1 hmem with h | h
  · exact h
  · exfalso
    obtain ⟨q, hq, rfl⟩ := List.mem_map.1 h
    exact hqm q hq (by simpa using hmid)

/-- C4 witness: closing the socket of the concrete busy state removes the
channel and rejects exactly the queued message. -/
theorem socket_close_rejects_queued_witness :
    (ProcessManager.socketClose closeExample).managed = none ∧
    (ProcessManager.socketClose closeExample).settlements
      = [⟨8, .rejected "Session host disconnected"⟩] := by
  have h := socket_close_rejects_queued closeExample
    { busy := true
      queue := [{ mid := 8, content := .str "b", onEvent := none }]
      eventHandler := some { mid := 7, onEvent := none, start := 0 } } rfl
  exact ⟨h.1, h.2.1⟩

/- ===== C5: agent exit mid-dispatch ===== -/

theorem exitText_eq_claimed (code : Int) :
    SessionHost.exitText code true = claimedExitText code ++ "\n" := by
  unfold SessionHost.exitText claimedExitText
  simp only [if_true, String.append_assoc]
  have h : ("). Next message will start a fresh session"
        ++ (" with resume" ++ ".]\n") : String)
      = "). Next message will start a fresh session with resume.]" ++ "\n" := by
    decide
  rw [h]

/-- C5 counterexample.  The synthetic completion the host actually emits on
agent exit carries a trailing newline inside its `result` field, so at exit
code 1 (resume identifier known) the emitted text is not the exact string
the claim states. -/
theorem agent_exit_text_counterexample :
    SessionHost.onClaudeExit { clientConnected := true, lastSessionId := some "abc" } 1
      = [{ type := "result", result := some (SessionHost.exitText 1 true),
           is_error := some true }] ∧
    SessionHost.exitText 1 true ≠ claimedExitText 1 := by decide

theorem lineStep_result (channel : String) (s : ProcessManager.MState)
    (e : ClaudeEvent) (htype : e.type = "result") (hsid : e.session_id = none)
    (hd : Handler) (hh : s.chan.eventHandler = some hd) (hq : s.chan.queue = []) :
    ProcessManager.lineStep channel s e
      = { s with
          chan := { s.chan with busy := false, eventHandler := none }
          obs := { s.obs with
            settlements := s.obs.settlements ++ [⟨hd.mid, .resolved
              { text := e.result.getD ""
                duration_ms := s.now - hd.start
                is_error := some (e.is_error.getD false) }⟩]
            completed := s.obs.completed + 1 } } := by
  unfold ProcessManager.lineStep
  rw [if_neg (by simp [htype])]
  rw [if_neg (by simp [hsid])]
  simp only [hh, htype, if_true]
  simp [ProcessManager.drainQueue, hq]

/-- C5 (amended).  If the agent exits while a dispatch is in flight and a
client is connected, the session host emits exactly one synthetic completion
line `{type: result, is_error: true}` whose text is
`"[Session ended (exit code N). Next message will start a fresh session with
resume.]"` followed by a trailing newline (the " with resume" suffix being
present exactly when a session identifier is known, as here), and feeding
that line to the Channel Manager settles the in-flight caller exactly once,
as a normal resolution (not a rejection) with `is_error = true`. -/
theorem agent_exit_single_completion (channel : String)
    (h : SessionHost.HostState) (code : Int) (sid : String)
    (hc : h.clientConnected = true) (hs : h.lastSessionId = some sid)
    (s : ProcessManager.MState) (hd : Handler)
    (hh : s.chan.eventHandler = some hd) (hq : s.chan.queue = []) :
    SessionHost.onClaudeExit h code
      = [{ type := "result", result := some (claimedExitText code ++ "\n"),
           is_error := some true }] ∧
    ∀ e ∈ SessionHost.onClaudeExit h code,
      (ProcessManager.lineStep channel s e).obs.settlements
        = s.obs.settlements ++ [⟨hd.mid, .resolved
            { text := claimedExitText code ++ "\n"
              duration_ms := s.now - hd.start
              is_error := some true }⟩] ∧
      (ProcessManager.lineStep channel s e).chan.busy = false ∧
      (ProcessManager.lineStep channel s e).chan.eventHandler = none := by
  have hemit : SessionHost.onClaudeExit h code
      = [{ type := "result", result := some (claimedExitText code ++ "\n"),
           is_error := some true }] := by
    simp [SessionHost.onClaudeExit, hc, hs, exitText_eq_claimed]
  refine ⟨hemit, ?_⟩
  intro e he
  rw [hemit, List.mem_singleton] at he
  subst he
  rw [lineStep_result channel s _ rfl rfl hd hh hq]
  simp

/-- C5 witness: at exit code 0 with a known session identifier and the
concrete in-flight state, the host emits the single synthetic line and the
caller's future resolves once with `is_error = true`. -/
theorem agent_exit_single_completion_witness :
    SessionHost.onClaudeExit { clientConnected := true, lastSessionId := some "abc" } 0
      = [{ type := "result", result := some (claimedExitText 0 ++ "\n"),
           is_error := some true }] ∧
    ∀ e ∈ SessionHost.onClaudeExit
        { clientConnected := true, lastSessionId := some "abc" } 0,
      (ProcessManager.lineStep "http" exitMState e).obs.settlements
        = exitMState.obs.settlements ++ [⟨3, .resolved
            { text := claimedExitText 0 ++ "\n"
              duration_ms := exitMState.now - 5
              is_error := some true }⟩] ∧
      (ProcessManager.lineStep "http" exitMState e).chan.busy = false ∧
      (ProcessManager.lineStep "http" exitMState e).chan.eventHandler = none :=
  agent_exit_single_completion "http"
    { clientConnected := true, lastSessionId := some "abc" } 0 "abc" rfl rfl
    exitMState { mid := 3, onEvent := none, start := 5 } rfl rfl

end Bareclaw
